import Mathlib

/-!
Verification development for the friction-log backend.

The repository is a small CRUD + analytics service over a single entity,
`FrictionItem`, plus one optional global setting (`global_daily_limit`).
Timestamps are modelled at the granularity the code observes them:
a `Timestamp` carries a calendar day (`day`, the value of `func.date`)
together with an opaque time-of-day component, and calendar dates are
plain integers (day numbers).  Database state is the list of stored items
plus the parsed value of the `global_daily_limit` settings row.
-/

set_option maxRecDepth 4000

namespace FrictionLog

/-- A timezone-aware datetime, at the precision the code observes:
`day` is the calendar date (what `func.date` extracts), `tod` the
remaining time-of-day information. -/
structure Timestamp where
  day : Int
  tod : Nat
deriving DecidableEq, Repr

/-- The calendar date of a datetime (the `func.date(...)` / `.date()` view). -/
def Timestamp.date (t : Timestamp) : Int := t.day

/-- A stored friction item row (`app/models.py`, class `FrictionItem`). -/
structure FrictionItem where
  id : Nat
  title : String
  description : Option String
  annoyance_level : Nat
  category : String
  status : String
  created_at : Timestamp
  updated_at : Timestamp
  fixed_at : Option Timestamp
  encounter_count : Nat
  encounter_limit : Option Nat
  last_encounter_date : Option Int
deriving DecidableEq, Repr

/-- Database state: the friction item rows plus the parsed integer value of
the `global_daily_limit` settings row (`none` when the row is absent). -/
structure DB where
  items : List FrictionItem
  global_daily_limit : Option Int
deriving DecidableEq, Repr

/-- Payload of `POST /api/friction-items` (`FrictionItemCreate`): title,
optional description, annoyance level and category. -/
structure FrictionItemCreate where
  title : String
  description : Option String
  annoyance_level : Nat
  category : String
deriving DecidableEq, Repr

/-- `crud.create_friction_item`: builds a row from the create payload with
`status="not_fixed"` forced and the model defaults `fixed_at=NULL`,
`encounter_count=0`, `encounter_limit=NULL`, `last_encounter_date=NULL`,
`created_at=updated_at=now` (`app/crud.py` lines 56-79, defaults from
`app/models.py`). -/
def create_friction_item (c : FrictionItemCreate) (now : Timestamp) (newId : Nat) :
    FrictionItem :=
  { id := newId
    title := c.title
    description := c.description
    annoyance_level := c.annoyance_level
    category := c.category
    status := "not_fixed"
    created_at := now
    updated_at := now
    fixed_at := none
    encounter_count := 0
    encounter_limit := none
    last_encounter_date := none }

/-- Payload of `PUT /api/friction-items/{id}` (`FrictionItemUpdate`), the
client-settable fields of the data model.  The outer `Option` is "field
supplied in the request" (pydantic `exclude_unset`); for the nullable fields
`description` and `encounter_limit` the inner `Option` is the supplied value,
which may itself be null. -/
structure FrictionItemUpdate where
  title : Option String
  annoyance_level : Option Nat
  category : Option String
  status : Option String
  description : Option (Option String)
  encounter_limit : Option (Option Nat)
deriving DecidableEq, Repr

/-- The update loop in `crud.update_friction_item` (lines 160-168): a nullable
field is written only when it is supplied and its value is not `None`. -/
def applyNullable (supplied : Option (Option α)) (old : Option α) : Option α :=
  match supplied with
  | some (some v) => some v
  | some none => old
  | none => old

/-- Field application of `crud.update_friction_item` (lines 160-168): every
supplied non-null field is written onto the row, everything else is kept. -/
def applyUpdate (u : FrictionItemUpdate) (it : FrictionItem) : FrictionItem :=
  { it with
    title := u.title.getD it.title
    annoyance_level := u.annoyance_level.getD it.annoyance_level
    category := u.category.getD it.category
    status := u.status.getD it.status
    description := applyNullable u.description it.description
    encounter_limit := applyNullable u.encounter_limit it.encounter_limit }

/-- The `fixed_at` transition logic of `crud.update_friction_item`
(lines 170-177): entering `"fixed"` stamps `fixed_at = now`, leaving
`"fixed"` clears it, otherwise it is untouched. -/
def applyFixedAtRule (old_status : String) (now : Timestamp) (it : FrictionItem) :
    FrictionItem :=
  if old_status ≠ "fixed" ∧ it.status = "fixed" then { it with fixed_at := some now }
  else if old_status = "fixed" ∧ it.status ≠ "fixed" then { it with fixed_at := none }
  else it

/-- The whole per-row effect of `crud.update_friction_item` on a found row:
apply the supplied fields, run the fixed_at rule against the old status, and
refresh `updated_at` (the `onupdate=utc_now` column default in
`app/models.py`). -/
def updatedItem (u : FrictionItemUpdate) (now : Timestamp) (it : FrictionItem) :
    FrictionItem :=
  { applyFixedAtRule it.status now (applyUpdate u it) with updated_at := now }

/-- `db.query(FrictionItem).filter(FrictionItem.id == item_id).first()`. -/
def findItem (db : DB) (item_id : Nat) : Option FrictionItem :=
  db.items.find? (fun it => it.id == item_id)

/-- `crud.update_friction_item` (lines 134-182): `None` for an unknown id,
otherwise the updated row together with the database holding it. -/
def update_friction_item (db : DB) (now : Timestamp) (item_id : Nat)
    (u : FrictionItemUpdate) : Option (FrictionItem × DB) :=
  match findItem db item_id with
  | none => none
  | some it =>
    let it2 := updatedItem u now it
    some (it2, { db with items := db.items.map (fun x => if x.id == item_id then it2 else x) })

/-- Modelled from the spec: the body of `crud.increment_encounter` is not in
the sources (only its caller `main.increment_encounter`, `app/main.py`
lines 244-273, remains).  Spec section 4.2, Encounter recording: "if
last_encounter_date != today: set encounter_count = 1, last_encounter_date =
today; else: encounter_count += 1". -/
def recordEncounter (today : Int) (it : FrictionItem) : FrictionItem :=
  if it.last_encounter_date == some today then
    { it with encounter_count := it.encounter_count + 1 }
  else
    { it with encounter_count := 1, last_encounter_date := some today }

/-- Result of the encounter endpoint: the updated item together with the
advisory limit flag. -/
structure EncounterResult where
  item : FrictionItem
  is_limit_exceeded : Bool
deriving DecidableEq, Repr

/-- Modelled from the spec: the body of `crud.increment_encounter` is not in
the sources.  Spec section 4.2: the result "exposes whether encounter_limit
is set and now exceeded (encounter_count >= encounter_limit), i.e., an
is_limit_exceeded flag, without blocking the increment"; an unknown id is
not-found (`None`, turned into a 404 by the caller in `app/main.py`). -/
def encounterFlag (it2 : FrictionItem) : Bool :=
  match it2.encounter_limit with
  | some lim => decide (lim ≤ it2.encounter_count)
  | none => false

/-- Modelled from the spec: the body of `crud.increment_encounter` is not in
the sources; it stores the updated row and returns it with the flag; an
unknown id is not-found (`None`, turned into a 404 by the caller in
`app/main.py`). -/
def increment_encounter (db : DB) (today : Int) (item_id : Nat) :
    Option (EncounterResult × DB) :=
  match findItem db item_id with
  | none => none
  | some it =>
    let it2 := recordEncounter today it
    some (⟨it2, encounterFlag it2⟩,
      { db with items := db.items.map (fun x => if x.id == item_id then it2 else x) })

/-- The active-item query used across `app/analytics.py`:
`db.query(FrictionItem).filter(FrictionItem.status != "fixed").all()`. -/
def activeItems (items : List FrictionItem) : List FrictionItem :=
  items.filter (fun it => it.status != "fixed")

/-- Result object of `analytics.calculate_current_score`. -/
structure CurrentScore where
  current_score : Nat
  active_count : Nat
  items_over_limit : Nat
  total_encounters_today : Nat
  weighted_encounters_today : Nat
  global_daily_limit : Option Int
  global_limit_percentage : Option Int
deriving DecidableEq, Repr

/-- `analytics.calculate_current_score` (`app/analytics.py` lines 16-81).
The three accumulators of the `for item in active_items` loop are written as
sums/counts over the corresponding filters of the same list, which is the
same computation.  The percentage is the exact-arithmetic floor of
`weighted / limit * 100`; the source computes `int((weighted / limit) * 100)`
with IEEE-754 doubles, which can differ from this by one (see the notes on
the numerical claim). -/
def calculate_current_score (db : DB) (today : Int) : CurrentScore :=
  let active := activeItems db.items
  let encToday : FrictionItem → Bool := fun it => it.last_encounter_date == some today
  let weighted :=
    ((active.filter encToday).map (fun it => it.encounter_count * it.annoyance_level)).sum
  let pct : Option Int :=
    match db.global_daily_limit with
    | some l => if 0 < l then some ((weighted * 100 : Int) / l) else none
    | none => none
  { current_score := (active.map (fun it => it.annoyance_level)).sum
    active_count := active.length
    items_over_limit :=
      (active.filter (fun it =>
        match it.encounter_limit with
        | some lim => encToday it && decide (lim ≤ it.encounter_count)
        | none => false)).length
    total_encounters_today := ((active.filter encToday).map (fun it => it.encounter_count)).sum
    weighted_encounters_today := weighted
    global_daily_limit := db.global_daily_limit
    global_limit_percentage := pct }

/-- One entry of the trend series. -/
structure TrendPoint where
  date : Int
  score : Nat
deriving DecidableEq, Repr

/-- The per-day membership filter of `analytics.calculate_trend`
(lines 111-119): `date(created_at) <= single_date AND (fixed_at IS NULL OR
date(fixed_at) > single_date)`. -/
def itemActiveOn (d : Int) (it : FrictionItem) : Bool :=
  decide (it.created_at.date ≤ d) &&
    (match it.fixed_at with
     | none => true
     | some f => decide (d < f.date))

/-- Score of a single trend day (lines 121-124). -/
def dailyScore (items : List FrictionItem) (d : Int) : Nat :=
  ((items.filter (itemActiveOn d)).map (fun it => it.annoyance_level)).sum

/-- `analytics.calculate_trend` (lines 84-128): one point per day from
`today - (days - 1)` through `today`, in ascending order. -/
def calculate_trend (db : DB) (today : Int) (days : Nat) : List TrendPoint :=
  let start_date : Int := today - ((days - 1 : Nat) : Int)
  (List.range days).map (fun (n : Nat) =>
    { date := start_date + (n : Int), score := dailyScore db.items (start_date + (n : Int)) })

/-- One row of the most-annoying ranking (lines 161-170). -/
structure ImpactRow where
  id : Nat
  title : String
  annoyance_level : Nat
  encounter_count : Nat
  impact : Nat
  category : String
deriving DecidableEq, Repr

/-- Row construction of `analytics.get_most_annoying_items` (lines 151-170):
with an encounter today, `impact = encounter_count * annoyance_level`;
otherwise `impact = annoyance_level` and the reported count is 0. -/
def impactRow (today : Int) (it : FrictionItem) : ImpactRow :=
  if it.last_encounter_date == some today then
    { id := it.id, title := it.title, annoyance_level := it.annoyance_level
      encounter_count := it.encounter_count
      impact := it.encounter_count * it.annoyance_level, category := it.category }
  else
    { id := it.id, title := it.title, annoyance_level := it.annoyance_level
      encounter_count := 0, impact := it.annoyance_level, category := it.category }

/-- The order of `items_with_impact.sort(key=lambda x: (x["impact"],
x["annoyance_level"]), reverse=True)`: `a` may precede `b` iff the composite
key of `a` is at least that of `b` lexicographically. -/
def rowKeyGe (a b : ImpactRow) : Bool :=
  decide (b.impact < a.impact) ||
    (decide (b.impact = a.impact) && decide (b.annoyance_level ≤ a.annoyance_level))

/-- Stable insertion of a row into an already-sorted suffix: the row passes
over strictly greater keys and stops at the first key not above its own, so
equal keys keep their original relative order — the stability contract of
Python `list.sort`. -/
def insertRow (r : ImpactRow) : List ImpactRow → List ImpactRow
  | [] => [r]
  | x :: xs => if rowKeyGe r x then r :: x :: xs else x :: insertRow r xs

/-- The stable descending sort under `rowKeyGe`; Python `list.sort` with
`key=(impact, annoyance_level)` and `reverse=True` is stable, and a stable
sort's output is uniquely determined by the key order, so this insertion
sort computes exactly it. -/
def sortRows : List ImpactRow → List ImpactRow
  | [] => []
  | x :: xs => insertRow x (sortRows xs)

/-- `analytics.get_most_annoying_items` (lines 131-177): build the impact
rows of the active items, sort them descending by `(impact,
annoyance_level)`, return the first `limit`. -/
def get_most_annoying_items (db : DB) (today : Int) (limit : Nat) : List ImpactRow :=
  (sortRows ((activeItems db.items).map (impactRow today))).take limit

/-- The category-breakdown mapping: exactly the five fixed keys of
`analytics.calculate_category_breakdown` (lines 192-199). -/
structure CategoryBreakdown where
  home : Nat
  work : Nat
  digital : Nat
  health : Nat
  other : Nat
deriving DecidableEq, Repr

/-- The mapping rendered as its key/value pairs, in the dictionary's key
order. -/
def CategoryBreakdown.toPairs (b : CategoryBreakdown) : List (String × Nat) :=
  [("home", b.home), ("work", b.work), ("digital", b.digital),
   ("health", b.health), ("other", b.other)]

/-- The loop body of `calculate_category_breakdown` (lines 205-207): the
item's level is added to its category's entry when that category is one of
the five keys, otherwise the item is skipped. -/
def addToBreakdown (b : CategoryBreakdown) (c : String) (n : Nat) : CategoryBreakdown :=
  if c = "home" then { b with home := b.home + n }
  else if c = "work" then { b with work := b.work + n }
  else if c = "digital" then { b with digital := b.digital + n }
  else if c = "health" then { b with health := b.health + n }
  else if c = "other" then { b with other := b.other + n }
  else b

/-- `analytics.calculate_category_breakdown` (lines 180-209). -/
def calculate_category_breakdown (db : DB) : CategoryBreakdown :=
  (activeItems db.items).foldl
    (fun b it => addToBreakdown b it.category it.annoyance_level)
    { home := 0, work := 0, digital := 0, health := 0, other := 0 }

/-- `main.get_friction_trend` (`app/main.py` lines 307-342): the `days`
query parameter is validated before `calculate_trend` runs; a 422 response
is modelled as `Except.error` with the endpoint's detail message. -/
def get_friction_trend (db : DB) (today : Int) (days : Int) :
    Except String (List TrendPoint) :=
  if days < 1 then Except.error "days must be at least 1"
  else if days > 365 then Except.error "days must not exceed 365"
  else Except.ok (calculate_trend db today days.toNat)

/-- The data-model invariant of spec section 3, as a decidable check on one
row: `fixed_at is not None` iff `status == "fixed"`. -/
def fixedAtInvariant (it : FrictionItem) : Bool :=
  it.fixed_at.isSome == (it.status == "fixed")

example : (create_friction_item ⟨"a", none, 3, "home"⟩ ⟨0, 0⟩ 1).status = "not_fixed" := rfl

/-! ## Helper lemmas -/

theorem applyUpdate_fixed_at (u : FrictionItemUpdate) (it : FrictionItem) :
    (applyUpdate u it).fixed_at = it.fixed_at := rfl

theorem updatedItem_status (u : FrictionItemUpdate) (now : Timestamp) (it : FrictionItem) :
    (updatedItem u now it).status = (applyUpdate u it).status := by
  unfold updatedItem applyFixedAtRule
  split
  · rfl
  · split <;> rfl

theorem updatedItem_fixed_at (u : FrictionItemUpdate) (now : Timestamp) (it : FrictionItem) :
    (updatedItem u now it).fixed_at =
      (if it.status ≠ "fixed" ∧ (applyUpdate u it).status = "fixed" then some now
       else if it.status = "fixed" ∧ (applyUpdate u it).status ≠ "fixed" then none
       else it.fixed_at) := by
  unfold updatedItem applyFixedAtRule
  by_cases h1 : it.status ≠ "fixed" ∧ (applyUpdate u it).status = "fixed"
  · simp [h1]
  · by_cases h2 : it.status = "fixed" ∧ (applyUpdate u it).status ≠ "fixed"
    · simp [h1, h2]
    · simp [h1, h2, applyUpdate_fixed_at]

/-- Claim C1: create always yields status `"not_fixed"` with `fixed_at` null;
update stamps `fixed_at = now` exactly on a transition into `"fixed"`, clears
it exactly on a transition out of `"fixed"`, leaves it untouched on no-op
transitions, and therefore preserves the invariant `fixed_at` non-null iff
status `"fixed"`; the invariant holds for every stored row after the
operation when it held before. -/
theorem fixed_at_iff_fixed :
    (∀ c now newId,
      (create_friction_item c now newId).status = "not_fixed" ∧
      (create_friction_item c now newId).fixed_at = none ∧
      fixedAtInvariant (create_friction_item c now newId) = true) ∧
    (∀ u now it,
      (it.status ≠ "fixed" → (updatedItem u now it).status = "fixed" →
        (updatedItem u now it).fixed_at = some now) ∧
      (it.status = "fixed" → (updatedItem u now it).status ≠ "fixed" →
        (updatedItem u now it).fixed_at = none) ∧
      (it.status = "fixed" → (updatedItem u now it).status = "fixed" →
        (updatedItem u now it).fixed_at = it.fixed_at) ∧
      (it.status ≠ "fixed" → (updatedItem u now it).status ≠ "fixed" →
        (updatedItem u now it).fixed_at = it.fixed_at) ∧
      (fixedAtInvariant it = true → fixedAtInvariant (updatedItem u now it) = true)) ∧
    (∀ db now item_id u it2 db2,
      update_friction_item db now item_id u = some (it2, db2) →
      (∀ x, x ∈ db.items → fixedAtInvariant x = true) →
      fixedAtInvariant it2 = true ∧ ∀ y, y ∈ db2.items → fixedAtInvariant y = true) := by
  have hstep : ∀ (u : FrictionItemUpdate) (now : Timestamp) (it : FrictionItem),
      (it.status ≠ "fixed" → (updatedItem u now it).status = "fixed" →
        (updatedItem u now it).fixed_at = some now) ∧
      (it.status = "fixed" → (updatedItem u now it).status ≠ "fixed" →
        (updatedItem u now it).fixed_at = none) ∧
      (it.status = "fixed" → (updatedItem u now it).status = "fixed" →
        (updatedItem u now it).fixed_at = it.fixed_at) ∧
      (it.status ≠ "fixed" → (updatedItem u now it).status ≠ "fixed" →
        (updatedItem u now it).fixed_at = it.fixed_at) ∧
      (fixedAtInvariant it = true → fixedAtInvariant (updatedItem u now it) = true) := by
    intro u now it
    have hs := updatedItem_status u now it
    have hf := updatedItem_fixed_at u now it
    refine ⟨?_, ?_, ?_, ?_, ?_⟩
    · intro h0 h1
      rw [hs] at h1
      rw [hf, if_pos ⟨h0, h1⟩]
    · intro h0 h1
      rw [hs] at h1
      rw [hf, if_neg (by simp [h0]), if_pos ⟨h0, h1⟩]
    · intro h0 h1
      rw [hs] at h1
      rw [hf, if_neg (by simp [h0]), if_neg (by simp [h1])]
    · intro h0 h1
      rw [hs] at h1
      rw [hf, if_neg (by simp [h1]), if_neg (by simp [h0])]
    · intro hinv
      unfold fixedAtInvariant at hinv ⊢
      simp only [beq_iff_eq] at hinv ⊢
      rw [hs, hf]
      by_cases h0 : it.status = "fixed" <;> by_cases h1 : (applyUpdate u it).status = "fixed"
      · rw [if_neg (by simp [h0]), if_neg (by simp [h1])]
        rw [show ((applyUpdate u it).status == "fixed") = true by simp [h1]]
        rw [show (it.status == "fixed") = true by simp [h0]] at hinv
        exact hinv
      · rw [if_neg (by simp [h0]), if_pos ⟨h0, h1⟩]
        simp [h1]
      · rw [if_pos ⟨h0, h1⟩]
        simp [h1]
      · rw [if_neg (by simp [h1]), if_neg (by simp [h0])]
        rw [show ((applyUpdate u it).status == "fixed") = false by simp [h1]]
        rw [show (it.status == "fixed") = false by simp [h0]] at hinv
        exact hinv
  refine ⟨fun c now newId => ⟨rfl, rfl, rfl⟩, hstep, ?_⟩
  intro db now item_id u it2 db2 hupd hall
  unfold update_friction_item at hupd
  rcases hfind : findItem db item_id with _ | it
  · rw [hfind] at hupd
    exact absurd hupd (by simp)
  · rw [hfind] at hupd
    simp only [Option.some.injEq, Prod.mk.injEq] at hupd
    obtain ⟨hit2, hdb2⟩ := hupd
    have hmem : it ∈ db.items := by
      have := List.mem_of_find?_eq_some hfind
      exact this
    have hinv2 : fixedAtInvariant it2 = true := by
      rw [← hit2]
      exact (hstep u now it).2.2.2.2 (hall it hmem)
    refine ⟨hinv2, ?_⟩
    intro y hy
    rw [← hdb2] at hy
    simp only [List.mem_map] at hy
    obtain ⟨x, hx, hxy⟩ := hy
    by_cases hid : x.id == item_id
    · rw [if_pos hid] at hxy
      rw [← hxy, hit2]
      exact hinv2
    · rw [if_neg hid] at hxy
      rw [← hxy]
      exact hall x hx

/-- A concrete not-yet-fixed stored row, used to instantiate theorems. -/
def w1item : FrictionItem :=
  { id := 1, title := "slow wifi", description := none, annoyance_level := 3
    category := "home", status := "not_fixed", created_at := ⟨0, 0⟩
    updated_at := ⟨0, 0⟩, fixed_at := none, encounter_count := 0
    encounter_limit := none, last_encounter_date := none }

/-- A one-row database holding `w1item`. -/
def w1db : DB := ⟨[w1item], none⟩

/-- An update request that only sets `status := "fixed"`. -/
def w1upd : FrictionItemUpdate := ⟨none, none, none, some "fixed", none, none⟩

/-- Witness for C1 at a concrete transition into `"fixed"`. -/
theorem fixed_at_iff_fixed_witness :
    (updatedItem w1upd ⟨5, 0⟩ w1item).fixed_at = some ⟨5, 0⟩ ∧
    fixedAtInvariant (updatedItem w1upd ⟨5, 0⟩ w1item) = true ∧
    (∀ y, y ∈ (DB.mk [updatedItem w1upd ⟨5, 0⟩ w1item] none).items →
      fixedAtInvariant y = true) := by
  refine ⟨(fixed_at_iff_fixed.2.1 w1upd ⟨5, 0⟩ w1item).1 (by decide) (by decide),
          (fixed_at_iff_fixed.2.1 w1upd ⟨5, 0⟩ w1item).2.2.2.2 (by decide), ?_⟩
  exact (fixed_at_iff_fixed.2.2 w1db ⟨5, 0⟩ 1 w1upd (updatedItem w1upd ⟨5, 0⟩ w1item)
    (DB.mk [updatedItem w1upd ⟨5, 0⟩ w1item] none) (by decide) (by decide)).2

theorem updatedItem_fields (u : FrictionItemUpdate) (now : Timestamp) (it : FrictionItem) :
    (updatedItem u now it).id = it.id ∧
    (updatedItem u now it).created_at = it.created_at ∧
    (updatedItem u now it).encounter_count = it.encounter_count ∧
    (updatedItem u now it).last_encounter_date = it.last_encounter_date ∧
    (updatedItem u now it).updated_at = now ∧
    (updatedItem u now it).title = u.title.getD it.title ∧
    (updatedItem u now it).annoyance_level = u.annoyance_level.getD it.annoyance_level ∧
    (updatedItem u now it).category = u.category.getD it.category ∧
    (updatedItem u now it).description = applyNullable u.description it.description ∧
    (updatedItem u now it).encounter_limit = applyNullable u.encounter_limit it.encounter_limit := by
  unfold updatedItem applyFixedAtRule applyUpdate
  split
  · exact ⟨rfl, rfl, rfl, rfl, rfl, rfl, rfl, rfl, rfl, rfl⟩
  · split
    · exact ⟨rfl, rfl, rfl, rfl, rfl, rfl, rfl, rfl, rfl, rfl⟩
    · exact ⟨rfl, rfl, rfl, rfl, rfl, rfl, rfl, rfl, rfl, rfl⟩

/-- Claim C10: a field supplied as null is ignored (no attribute can be
cleared to null through update), only supplied non-null fields are written,
and every other stored field except `fixed_at` (driven by the status
transition) and the refreshed `updated_at` keeps its previous value. -/
theorem update_frame_spec :
    ∀ db now item_id u it it2 db2,
      findItem db item_id = some it →
      update_friction_item db now item_id u = some (it2, db2) →
      it2.id = it.id ∧
      it2.created_at = it.created_at ∧
      it2.encounter_count = it.encounter_count ∧
      it2.last_encounter_date = it.last_encounter_date ∧
      it2.updated_at = now ∧
      (u.title = none → it2.title = it.title) ∧
      (∀ v, u.title = some v → it2.title = v) ∧
      (u.annoyance_level = none → it2.annoyance_level = it.annoyance_level) ∧
      (∀ v, u.annoyance_level = some v → it2.annoyance_level = v) ∧
      (u.category = none → it2.category = it.category) ∧
      (∀ v, u.category = some v → it2.category = v) ∧
      (u.status = none → it2.status = it.status) ∧
      (∀ v, u.status = some v → it2.status = v) ∧
      (u.description = none → it2.description = it.description) ∧
      (u.description = some none → it2.description = it.description) ∧
      (∀ v, u.description = some (some v) → it2.description = some v) ∧
      (u.encounter_limit = none → it2.encounter_limit = it.encounter_limit) ∧
      (u.encounter_limit = some none → it2.encounter_limit = it.encounter_limit) ∧
      (∀ v, u.encounter_limit = some (some v) → it2.encounter_limit = some v) := by
  intro db now item_id u it it2 db2 hfind hupd
  unfold update_friction_item at hupd
  rw [hfind] at hupd
  simp only [Option.some.injEq, Prod.mk.injEq] at hupd
  obtain ⟨hit2, _⟩ := hupd
  obtain ⟨h1, h2, h3, h4, h5, h6, h7, h8, h9, h10⟩ := updatedItem_fields u now it
  rw [hit2] at h1 h2 h3 h4 h5 h6 h7 h8 h9 h10
  have hst := updatedItem_status u now it
  rw [hit2] at hst
  refine ⟨h1, h2, h3, h4, h5, ?_, ?_, ?_, ?_, ?_, ?_, ?_, ?_, ?_, ?_, ?_, ?_, ?_, ?_⟩
  · intro h; rw [h6, h]; rfl
  · intro v h; rw [h6, h]; rfl
  · intro h; rw [h7, h]; rfl
  · intro v h; rw [h7, h]; rfl
  · intro h; rw [h8, h]; rfl
  · intro v h; rw [h8, h]; rfl
  · intro h; rw [hst]; show (applyUpdate u it).status = it.status
    unfold applyUpdate; rw [h]; rfl
  · intro v h; rw [hst]; show (applyUpdate u it).status = v
    unfold applyUpdate; rw [h]; rfl
  · intro h; rw [h9, h]; rfl
  · intro h; rw [h9, h]; rfl
  · intro v h; rw [h9, h]; rfl
  · intro h; rw [h10, h]; rfl
  · intro h; rw [h10, h]; rfl
  · intro v h; rw [h10, h]; rfl

/-- An update request that supplies `description` and `encounter_limit` as
explicit nulls and a new title; used to instantiate the frame theorem. -/
def w2upd : FrictionItemUpdate :=
  ⟨some "new title", none, none, none, some none, some none⟩

/-- A stored row with a non-null description and limit, so the null-supplied
update visibly leaves them unchanged. -/
def w2item : FrictionItem :=
  { id := 2, title := "old", description := some "desc", annoyance_level := 4
    category := "work", status := "in_progress", created_at := ⟨1, 3⟩
    updated_at := ⟨1, 3⟩, fixed_at := none, encounter_count := 7
    encounter_limit := some 3, last_encounter_date := some 1 }

/-- A one-row database holding `w2item`. -/
def w2db : DB := ⟨[w2item], some 10⟩

/-- Witness for C10: the null-supplied fields survive and the title is the
only written field. -/
theorem update_frame_spec_witness :
    (updatedItem w2upd ⟨2, 0⟩ w2item).description = some "desc" ∧
    (updatedItem w2upd ⟨2, 0⟩ w2item).encounter_limit = some 3 ∧
    (updatedItem w2upd ⟨2, 0⟩ w2item).title = "new title" ∧
    (updatedItem w2upd ⟨2, 0⟩ w2item).encounter_count = 7 := by
  have h := update_frame_spec w2db ⟨2, 0⟩ 2 w2upd w2item
    (updatedItem w2upd ⟨2, 0⟩ w2item)
    (DB.mk [updatedItem w2upd ⟨2, 0⟩ w2item] (some 10)) (by decide) (by decide)
  exact ⟨h.2.2.2.2.2.2.2.2.2.2.2.2.2.2.1 rfl, h.2.2.2.2.2.2.2.2.2.2.2.2.2.2.2.2.2.1 rfl,
    h.2.2.2.2.2.2.1 "new title" rfl, h.2.2.1⟩

/-- Claim C3: `current_score` is the sum of `annoyance_level` over the items
with status other than `"fixed"`, `active_count` the number of such items,
and both are invariant under reordering of the stored items. -/
theorem current_score_spec :
    ∀ db today,
      (calculate_current_score db today).current_score =
        ((db.items.filter (fun it => it.status != "fixed")).map
          (fun it => it.annoyance_level)).sum ∧
      (calculate_current_score db today).active_count =
        (db.items.filter (fun it => it.status != "fixed")).length ∧
      ∀ db2 : DB, db.items.Perm db2.items →
        (calculate_current_score db today).current_score =
          (calculate_current_score db2 today).current_score ∧
        (calculate_current_score db today).active_count =
          (calculate_current_score db2 today).active_count := by
  intro db today
  refine ⟨rfl, rfl, ?_⟩
  intro db2 hperm
  have hact : (activeItems db.items).Perm (activeItems db2.items) := by
    unfold activeItems
    exact hperm.filter _
  constructor
  · exact (hact.map (fun it => it.annoyance_level)).sum_eq
  · exact hact.length_eq

/-- A second one-row database: `w2item` with the rows of `w1db` reordered
around it, used to instantiate order-independence. -/
def w3db : DB := ⟨[w1item, w2item], none⟩

/-- The reordering of `w3db`. -/
def w3db2 : DB := ⟨[w2item, w1item], none⟩

/-- Witness for C3 on a two-row database and its reversal. -/
theorem current_score_spec_witness :
    (calculate_current_score w3db 1).current_score = 7 ∧
    (calculate_current_score w3db 1).active_count = 2 ∧
    (calculate_current_score w3db 1).current_score =
      (calculate_current_score w3db2 1).current_score := by
  refine ⟨by decide, by decide, ?_⟩
  exact ((current_score_spec w3db 1).2.2 w3db2 (by decide)).1

/-- Claim C4: for an existing id, recording an encounter resets the count
to 1 and stamps today when the previous encounter date differs from today,
increments the count otherwise, stores the updated row, and reports the
advisory `is_limit_exceeded` flag (limit set and new count at least the
limit) without blocking the increment; an unknown id is not-found. -/
theorem record_encounter_spec :
    (∀ db today item_id it, findItem db item_id = some it →
      ∃ r db2, increment_encounter db today item_id = some (r, db2) ∧
        (it.last_encounter_date ≠ some today →
          r.item.encounter_count = 1 ∧ r.item.last_encounter_date = some today) ∧
        (it.last_encounter_date = some today →
          r.item.encounter_count = it.encounter_count + 1 ∧
          r.item.last_encounter_date = some today) ∧
        (r.is_limit_exceeded = true ↔
          ∃ lim, r.item.encounter_limit = some lim ∧ lim ≤ r.item.encounter_count) ∧
        r.item ∈ db2.items) ∧
    (∀ db today item_id, findItem db item_id = none →
      increment_encounter db today item_id = none) := by
  constructor
  · intro db today item_id it hfind
    have hinc : increment_encounter db today item_id =
        some (⟨recordEncounter today it, encounterFlag (recordEncounter today it)⟩,
          DB.mk (db.items.map (fun x => if x.id == item_id then recordEncounter today it else x))
            db.global_daily_limit) := by
      unfold increment_encounter
      rw [hfind]
    refine ⟨_, _, hinc, ?_, ?_, ?_, ?_⟩
    · intro hne
      show (recordEncounter today it).encounter_count = 1 ∧
        (recordEncounter today it).last_encounter_date = some today
      unfold recordEncounter
      rw [if_neg (by simpa using hne)]
      exact ⟨rfl, rfl⟩
    · intro heq
      show (recordEncounter today it).encounter_count = it.encounter_count + 1 ∧
        (recordEncounter today it).last_encounter_date = some today
      unfold recordEncounter
      rw [if_pos (by simpa using heq)]
      exact ⟨rfl, heq⟩
    · show encounterFlag (recordEncounter today it) = true ↔ _
      unfold encounterFlag
      rcases hlim : (recordEncounter today it).encounter_limit with _ | lim
      · simp
      · simp [hlim]
    · show recordEncounter today it ∈ _
      have hmem : it ∈ db.items := List.mem_of_find?_eq_some hfind
      have hid : (it.id == item_id) = true := by
        have := List.find?_some hfind
        simpa using this
      simp only [List.mem_map]
      exact ⟨it, hmem, by rw [hid]; rfl⟩
  · intro db today item_id hfind
    unfold increment_encounter
    rw [hfind]

/-- A row that already has two encounters today (day 4) and a limit of 3. -/
def w4item : FrictionItem :=
  { id := 4, title := "tabs", description := none, annoyance_level := 2
    category := "digital", status := "not_fixed", created_at := ⟨0, 0⟩
    updated_at := ⟨0, 0⟩, fixed_at := none, encounter_count := 2
    encounter_limit := some 3, last_encounter_date := some 4 }

/-- A one-row database holding `w4item`. -/
def w4db : DB := ⟨[w4item], none⟩

/-- The concrete result row of a same-day encounter on `w4item`. -/
def w4res : EncounterResult := ⟨{ w4item with encounter_count := 3 }, true⟩

/-- The database after that encounter. -/
def w4db2 : DB := ⟨[{ w4item with encounter_count := 3 }], none⟩

/-- Witness for C4: a same-day encounter on `w4item` increments 2 to 3 and
trips the advisory flag, and an unknown id is not-found. -/
theorem record_encounter_spec_witness :
    increment_encounter w4db 4 4 = some (w4res, w4db2) ∧
    w4res.item.encounter_count = w4item.encounter_count + 1 ∧
    w4res.is_limit_exceeded = true ∧
    increment_encounter w4db 4 99 = none := by
  obtain ⟨r, db2, heq, hne, hsame, hflag, hmem⟩ :=
    record_encounter_spec.1 w4db 4 4 w4item (by decide)
  refine ⟨by decide, ?_, by decide, record_encounter_spec.2 w4db 4 99 (by decide)⟩
  have h2 : (w4res, w4db2) = (r, db2) :=
    Option.some.inj ((show increment_encounter w4db 4 4 = some (w4res, w4db2)
      by decide).symm.trans heq)
  rw [show w4res = r from congrArg Prod.fst h2]
  exact (hsame (by decide)).1

/-- Claim C2: for `days` in `[1, 365]` the trend has exactly `days` entries,
one per calendar date in ascending order ending on today inclusive, and each
entry's score is the sum of `annoyance_level` over exactly the items with
`date(created_at) <= that_date` and (`fixed_at` null or `date(fixed_at) >
that_date`); over an empty collection every score is 0. -/
theorem trend_series_spec :
    ∀ db (today : Int) (days : Nat), 1 ≤ days → days ≤ 365 →
      (calculate_trend db today days).length = days ∧
      (calculate_trend db today days).map TrendPoint.date =
        (List.range days).map (fun (n : Nat) => today - (days : Int) + 1 + (n : Int)) ∧
      (∀ p, p ∈ calculate_trend db today days →
        p.score = ((db.items.filter (fun it =>
            decide (it.created_at.date ≤ p.date) &&
              (match it.fixed_at with
               | none => true
               | some f => decide (p.date < f.date)))).map
          (fun it => it.annoyance_level)).sum) ∧
      (db.items = [] → ∀ p, p ∈ calculate_trend db today days → p.score = 0) ∧
      ((∀ q, q ∈ calculate_trend db today days → q.date ≤ today) ∧
        ∃ p, p ∈ calculate_trend db today days ∧ p.date = today) := by
  intro db today days h1 h365
  have hdates : (calculate_trend db today days).map TrendPoint.date =
      (List.range days).map (fun (n : Nat) => today - (days : Int) + 1 + (n : Int)) := by
    unfold calculate_trend
    rw [List.map_map]
    apply List.map_congr_left
    intro n _
    show today - ((days - 1 : Nat) : Int) + (n : Int) = today - (days : Int) + 1 + (n : Int)
    omega
  have hscore : ∀ p, p ∈ calculate_trend db today days →
      p.score = ((db.items.filter (fun it =>
          decide (it.created_at.date ≤ p.date) &&
            (match it.fixed_at with
             | none => true
             | some f => decide (p.date < f.date)))).map
        (fun it => it.annoyance_level)).sum := by
    intro p hp
    unfold calculate_trend at hp
    simp only [List.mem_map, List.mem_range] at hp
    obtain ⟨n, _, hfn⟩ := hp
    rw [← hfn]
    rfl
  refine ⟨?_, hdates, hscore, ?_, ?_, ?_⟩
  · unfold calculate_trend
    rw [List.length_map, List.length_range]
  · intro hemp p hp
    have := hscore p hp
    rw [hemp] at this
    simpa using this
  · intro q hq
    have hqd : q.date ∈ (calculate_trend db today days).map TrendPoint.date :=
      List.mem_map.2 ⟨q, hq, rfl⟩
    rw [hdates] at hqd
    simp only [List.mem_map, List.mem_range] at hqd
    obtain ⟨n, hn, hqd⟩ := hqd
    omega
  · have htoday : today ∈ (calculate_trend db today days).map TrendPoint.date := by
      rw [hdates]
      refine List.mem_map.2 ⟨days - 1, List.mem_range.2 (by omega), ?_⟩
      show today - (days : Int) + 1 + ((days - 1 : Nat) : Int) = today
      omega
    obtain ⟨p, hp, hpd⟩ := List.mem_map.1 htoday
    exact ⟨p, hp, hpd⟩

/-- The empty database. -/
def emptyDB : DB := ⟨[], none⟩

/-- Witness for C2 over the empty collection with `days = 7`. -/
theorem trend_series_spec_witness :
    (calculate_trend emptyDB 0 7).length = 7 ∧
    (∀ p, p ∈ calculate_trend emptyDB 0 7 → p.score = 0) ∧
    (calculate_trend emptyDB 0 7).map TrendPoint.date =
      (List.range 7).map (fun (n : Nat) => 0 - (7 : Int) + 1 + (n : Int)) := by
  obtain ⟨hlen, hdates, _, hempty, _⟩ :=
    trend_series_spec emptyDB 0 7 (by decide) (by decide)
  exact ⟨hlen, hempty rfl, hdates⟩

/-- Claim C8: the trend endpoint rejects `days` with a validation error
exactly when it lies outside `[1, 365]`, and an in-range `days` is passed
through unclamped: the response is the trend of exactly `days` entries. -/
theorem trend_days_validation :
    ∀ db (today days : Int),
      ((∃ e, get_friction_trend db today days = Except.error e) ↔
        days < 1 ∨ 365 < days) ∧
      (1 ≤ days → days ≤ 365 →
        get_friction_trend db today days =
          Except.ok (calculate_trend db today days.toNat) ∧
        (calculate_trend db today days.toNat).length = days.toNat ∧
        (days.toNat : Int) = days) := by
  intro db today days
  constructor
  · constructor
    · rintro ⟨e, he⟩
      by_contra hcon
      push_neg at hcon
      unfold get_friction_trend at he
      rw [if_neg (by omega), if_neg (by omega)] at he
      exact absurd he (by simp)
    · intro h
      unfold get_friction_trend
      rcases h with h | h
      · exact ⟨_, by rw [if_pos h]⟩
      · exact ⟨_, by rw [if_neg (by omega), if_pos (by omega)]⟩
  · intro hlo hhi
    refine ⟨?_, ?_, by omega⟩
    · unfold get_friction_trend
      rw [if_neg (by omega), if_neg (by omega)]
    · unfold calculate_trend
      rw [List.length_map, List.length_range]

/-- Witness for C8: `days = 0` and `days = 366` are rejected, `days = 365`
is accepted and yields 365 entries. -/
theorem trend_days_validation_witness :
    (∃ e, get_friction_trend emptyDB 0 0 = Except.error e) ∧
    (∃ e, get_friction_trend emptyDB 0 366 = Except.error e) ∧
    get_friction_trend emptyDB 0 365 =
      Except.ok (calculate_trend emptyDB 0 (365 : Int).toNat) ∧
    (calculate_trend emptyDB 0 (365 : Int).toNat).length = (365 : Int).toNat := by
  refine ⟨(trend_days_validation emptyDB 0 0).1.2 (Or.inl (by decide)),
    (trend_days_validation emptyDB 0 366).1.2 (Or.inr (by decide)), ?_, ?_⟩
  · exact ((trend_days_validation emptyDB 0 365).2 (by decide) (by decide)).1
  · exact ((trend_days_validation emptyDB 0 365).2 (by decide) (by decide)).2.1

/-- An item created on day 1, not fixed: it satisfies the fixed_at-iff-fixed
invariant, yet on day 0 the trend filter excludes it while the status filter
counts it. -/
def c5item : FrictionItem :=
  { id := 9, title := "future", description := none, annoyance_level := 3
    category := "home", status := "not_fixed", created_at := ⟨1, 0⟩
    updated_at := ⟨1, 0⟩, fixed_at := none, encounter_count := 0
    encounter_limit := none, last_encounter_date := none }

/-- The one-row database holding `c5item`. -/
def c5db : DB := ⟨[c5item], none⟩

/-- Counterexample to C5 as stated: every item of `c5db` satisfies the
fixed_at-iff-fixed invariant, yet on day 0 `trend(1)` reports score 0 while
`current_score` reports 3 — the invariant alone does not make the two
filters agree when an item's `created_at` date lies after the evaluation
day. -/
theorem trend1_current_score_counterexample :
    c5db.items.all fixedAtInvariant = true ∧
    (calculate_trend c5db 0 1).map TrendPoint.score = [0] ∧
    (calculate_current_score c5db 0).current_score = 3 ∧
    (calculate_trend c5db 0 1).map TrendPoint.score ≠
      [(calculate_current_score c5db 0).current_score] := by
  refine ⟨by decide, by decide, by decide, by decide⟩

/-- Claim C5 as amended: on any day, `trend(1)` equals `current_score` for
collections whose items satisfy the fixed_at-iff-fixed invariant and,
additionally, were created on or before that day and (when fixed) have a
`fixed_at` date on or before that day. -/
theorem trend1_eq_current_score_amended :
    ∀ db (today : Int),
      (∀ it, it ∈ db.items → fixedAtInvariant it = true) →
      (∀ it, it ∈ db.items → it.created_at.date ≤ today) →
      (∀ it, it ∈ db.items → ∀ f, it.fixed_at = some f → f.date ≤ today) →
      (calculate_trend db today 1).map TrendPoint.score =
        [(calculate_current_score db today).current_score] := by
  intro db today hinv hcreated hfixed
  have hfilter : db.items.filter (itemActiveOn today) =
      db.items.filter (fun it => it.status != "fixed") := by
    apply List.filter_congr
    intro it hit
    have h1 := hinv it hit
    unfold fixedAtInvariant at h1
    simp only [beq_iff_eq] at h1
    unfold itemActiveOn
    rcases hfa : it.fixed_at with _ | f
    · rw [hfa] at h1
      have hst : (it.status == "fixed") = false := by
        simpa using h1.symm
      have hne : (it.status != "fixed") = true := by
        simp [bne]
        simpa using hst
      rw [hne]
      simp [hcreated it hit]
    · rw [hfa] at h1
      have hst : (it.status == "fixed") = true := by
        simpa using h1.symm
      have hne : (it.status != "fixed") = false := by
        simp [bne, hst]
      rw [hne]
      have hf : f.date ≤ today := hfixed it hit f hfa
      simp [show ¬(today < f.date) by omega]
  show [TrendPoint.score
      { date := today - ((1 - 1 : Nat) : Int) + ((0 : Nat) : Int)
        score := dailyScore db.items (today - ((1 - 1 : Nat) : Int) + ((0 : Nat) : Int)) }] = _
  have htoday : today - ((1 - 1 : Nat) : Int) + ((0 : Nat) : Int) = today := by omega
  rw [htoday]
  show [dailyScore db.items today] = [(calculate_current_score db today).current_score]
  unfold dailyScore calculate_current_score activeItems
  rw [hfilter]

/-- A database satisfying the amended hypotheses on day 5: one active item
and one item fixed on day 3. -/
def c5db2 : DB :=
  ⟨[{ id := 1, title := "a", description := none, annoyance_level := 2
      category := "home", status := "not_fixed", created_at := ⟨0, 0⟩
      updated_at := ⟨0, 0⟩, fixed_at := none, encounter_count := 0
      encounter_limit := none, last_encounter_date := none },
    { id := 2, title := "b", description := none, annoyance_level := 5
      category := "work", status := "fixed", created_at := ⟨1, 0⟩
      updated_at := ⟨3, 0⟩, fixed_at := some ⟨3, 0⟩, encounter_count := 0
      encounter_limit := none, last_encounter_date := none }], none⟩

/-- Witness for the amended C5 on `c5db2` at day 5. -/
theorem trend1_eq_current_score_amended_witness :
    (calculate_trend c5db2 5 1).map TrendPoint.score =
      [(calculate_current_score c5db2 5).current_score] ∧
    (calculate_current_score c5db2 5).current_score = 2 :=
  ⟨trend1_eq_current_score_amended c5db2 5 (by decide) (by decide)
    (by
      intro it hit f hf
      have hmem : it = c5db2.items.get ⟨0, by decide⟩ ∨ it = c5db2.items.get ⟨1, by decide⟩ := by
        simpa [c5db2] using hit
      rcases hmem with h | h <;> subst h
      · exact absurd hf (by simp [c5db2])
      · have hfe : (⟨3, 0⟩ : Timestamp) = f := by
          simpa [c5db2] using hf
        rw [← hfe]
        decide), by decide⟩

/-- The five category keys of the breakdown dictionary. -/
def breakdownKeys : List String := ["home", "work", "digital", "health", "other"]

theorem addToBreakdown_home (b : CategoryBreakdown) (c : String) (n : Nat) :
    (addToBreakdown b c n).home = b.home + (if c = "home" then n else 0) := by
  unfold addToBreakdown
  by_cases h1 : c = "home"
  · simp [h1]
  · simp only [if_neg h1, Nat.add_zero]
    repeat' (first | rfl | split)

theorem addToBreakdown_work (b : CategoryBreakdown) (c : String) (n : Nat) :
    (addToBreakdown b c n).work = b.work + (if c = "work" then n else 0) := by
  unfold addToBreakdown
  by_cases h1 : c = "work"
  · simp [h1]
  · simp only [if_neg h1, Nat.add_zero]
    repeat' (first | rfl | split)

theorem addToBreakdown_digital (b : CategoryBreakdown) (c : String) (n : Nat) :
    (addToBreakdown b c n).digital = b.digital + (if c = "digital" then n else 0) := by
  unfold addToBreakdown
  by_cases h1 : c = "digital"
  · simp [h1]
  · simp only [if_neg h1, Nat.add_zero]
    repeat' (first | rfl | split)

theorem addToBreakdown_health (b : CategoryBreakdown) (c : String) (n : Nat) :
    (addToBreakdown b c n).health = b.health + (if c = "health" then n else 0) := by
  unfold addToBreakdown
  by_cases h1 : c = "health"
  · simp [h1]
  · simp only [if_neg h1, Nat.add_zero]
    repeat' (first | rfl | split)

theorem addToBreakdown_other (b : CategoryBreakdown) (c : String) (n : Nat) :
    (addToBreakdown b c n).other = b.other + (if c = "other" then n else 0) := by
  unfold addToBreakdown
  by_cases h1 : c = "other"
  · simp [h1]
  · simp only [if_neg h1, Nat.add_zero]
    repeat' (first | rfl | split)

theorem breakdown_foldl_home :
    ∀ (l : List FrictionItem) (acc : CategoryBreakdown),
      (l.foldl (fun b it => addToBreakdown b it.category it.annoyance_level) acc).home =
        acc.home + ((l.filter (fun it => it.category == "home")).map
          (fun it => it.annoyance_level)).sum := by
  intro l
  induction l with
  | nil => intro acc; simp
  | cons hd tl ih =>
    intro acc
    rw [List.foldl_cons, ih, addToBreakdown_home]
    by_cases h : hd.category = "home" <;> simp [List.filter_cons, h] <;> omega

theorem breakdown_foldl_work :
    ∀ (l : List FrictionItem) (acc : CategoryBreakdown),
      (l.foldl (fun b it => addToBreakdown b it.category it.annoyance_level) acc).work =
        acc.work + ((l.filter (fun it => it.category == "work")).map
          (fun it => it.annoyance_level)).sum := by
  intro l
  induction l with
  | nil => intro acc; simp
  | cons hd tl ih =>
    intro acc
    rw [List.foldl_cons, ih, addToBreakdown_work]
    by_cases h : hd.category = "work" <;> simp [List.filter_cons, h] <;> omega

theorem breakdown_foldl_digital :
    ∀ (l : List FrictionItem) (acc : CategoryBreakdown),
      (l.foldl (fun b it => addToBreakdown b it.category it.annoyance_level) acc).digital =
        acc.digital + ((l.filter (fun it => it.category == "digital")).map
          (fun it => it.annoyance_level)).sum := by
  intro l
  induction l with
  | nil => intro acc; simp
  | cons hd tl ih =>
    intro acc
    rw [List.foldl_cons, ih, addToBreakdown_digital]
    by_cases h : hd.category = "digital" <;> simp [List.filter_cons, h] <;> omega

theorem breakdown_foldl_health :
    ∀ (l : List FrictionItem) (acc : CategoryBreakdown),
      (l.foldl (fun b it => addToBreakdown b it.category it.annoyance_level) acc).health =
        acc.health + ((l.filter (fun it => it.category == "health")).map
          (fun it => it.annoyance_level)).sum := by
  intro l
  induction l with
  | nil => intro acc; simp
  | cons hd tl ih =>
    intro acc
    rw [List.foldl_cons, ih, addToBreakdown_health]
    by_cases h : hd.category = "health" <;> simp [List.filter_cons, h] <;> omega

theorem breakdown_foldl_other :
    ∀ (l : List FrictionItem) (acc : CategoryBreakdown),
      (l.foldl (fun b it => addToBreakdown b it.category it.annoyance_level) acc).other =
        acc.other + ((l.filter (fun it => it.category == "other")).map
          (fun it => it.annoyance_level)).sum := by
  intro l
  induction l with
  | nil => intro acc; simp
  | cons hd tl ih =>
    intro acc
    rw [List.foldl_cons, ih, addToBreakdown_other]
    by_cases h : hd.category = "other" <;> simp [List.filter_cons, h] <;> omega

theorem five_filter_sum :
    ∀ l : List FrictionItem, (∀ it, it ∈ l → it.category ∈ breakdownKeys) →
      ((l.filter (fun it => it.category == "home")).map (fun it => it.annoyance_level)).sum +
      ((l.filter (fun it => it.category == "work")).map (fun it => it.annoyance_level)).sum +
      ((l.filter (fun it => it.category == "digital")).map (fun it => it.annoyance_level)).sum +
      ((l.filter (fun it => it.category == "health")).map (fun it => it.annoyance_level)).sum +
      ((l.filter (fun it => it.category == "other")).map (fun it => it.annoyance_level)).sum =
        (l.map (fun it => it.annoyance_level)).sum := by
  intro l
  induction l with
  | nil => intro _; simp
  | cons hd tl ih =>
    intro h
    have htl := ih (fun it hit => h it (List.mem_cons_of_mem hd hit))
    have hc := h hd (List.mem_cons_self hd tl)
    simp only [breakdownKeys, List.mem_cons, List.not_mem_nil, or_false] at hc
    rcases hc with hc | hc | hc | hc | hc <;>
      simp [List.filter_cons, hc] <;> omega

/-- Claim C6: the breakdown has exactly the five keys home, work, digital,
health, other (0 by default), each value is the sum of `annoyance_level`
over active items of that category, and — for collections whose categories
lie in the enumeration, as the data model requires — the values sum to
`current_score`. -/
theorem category_breakdown_spec :
    ∀ db today,
      (calculate_category_breakdown db).toPairs.map Prod.fst = breakdownKeys ∧
      (calculate_category_breakdown db).home =
        (((activeItems db.items).filter (fun it => it.category == "home")).map
          (fun it => it.annoyance_level)).sum ∧
      (calculate_category_breakdown db).work =
        (((activeItems db.items).filter (fun it => it.category == "work")).map
          (fun it => it.annoyance_level)).sum ∧
      (calculate_category_breakdown db).digital =
        (((activeItems db.items).filter (fun it => it.category == "digital")).map
          (fun it => it.annoyance_level)).sum ∧
      (calculate_category_breakdown db).health =
        (((activeItems db.items).filter (fun it => it.category == "health")).map
          (fun it => it.annoyance_level)).sum ∧
      (calculate_category_breakdown db).other =
        (((activeItems db.items).filter (fun it => it.category == "other")).map
          (fun it => it.annoyance_level)).sum ∧
      ((∀ it, it ∈ db.items → it.category ∈ breakdownKeys) →
        ((calculate_category_breakdown db).toPairs.map Prod.snd).sum =
          (calculate_current_score db today).current_score) := by
  intro db today
  have hh : (calculate_category_breakdown db).home =
      (((activeItems db.items).filter (fun it => it.category == "home")).map
        (fun it => it.annoyance_level)).sum := by
    unfold calculate_category_breakdown
    simpa using breakdown_foldl_home (activeItems db.items) ⟨0, 0, 0, 0, 0⟩
  have hw : (calculate_category_breakdown db).work =
      (((activeItems db.items).filter (fun it => it.category == "work")).map
        (fun it => it.annoyance_level)).sum := by
    unfold calculate_category_breakdown
    simpa using breakdown_foldl_work (activeItems db.items) ⟨0, 0, 0, 0, 0⟩
  have hd : (calculate_category_breakdown db).digital =
      (((activeItems db.items).filter (fun it => it.category == "digital")).map
        (fun it => it.annoyance_level)).sum := by
    unfold calculate_category_breakdown
    simpa using breakdown_foldl_digital (activeItems db.items) ⟨0, 0, 0, 0, 0⟩
  have hhe : (calculate_category_breakdown db).health =
      (((activeItems db.items).filter (fun it => it.category == "health")).map
        (fun it => it.annoyance_level)).sum := by
    unfold calculate_category_breakdown
    simpa using breakdown_foldl_health (activeItems db.items) ⟨0, 0, 0, 0, 0⟩
  have ho : (calculate_category_breakdown db).other =
      (((activeItems db.items).filter (fun it => it.category == "other")).map
        (fun it => it.annoyance_level)).sum := by
    unfold calculate_category_breakdown
    simpa using breakdown_foldl_other (activeItems db.items) ⟨0, 0, 0, 0, 0⟩
  refine ⟨rfl, hh, hw, hd, hhe, ho, ?_⟩
  intro hvalid
  have hvalid2 : ∀ it, it ∈ activeItems db.items → it.category ∈ breakdownKeys :=
    fun it hit => hvalid it (List.mem_of_mem_filter hit)
  have hfive := five_filter_sum (activeItems db.items) hvalid2
  simp only [CategoryBreakdown.toPairs, List.map_cons, List.map_nil, List.sum_cons,
    List.sum_nil]
  rw [hh, hw, hd, hhe, ho]
  rw [show (calculate_current_score db today).current_score =
    ((activeItems db.items).map (fun it => it.annoyance_level)).sum from rfl]
  omega

/-- The worked example of spec section 8: A(3, home), B(5, work, fixed),
C(2, digital). -/
def c6db : DB :=
  ⟨[{ id := 1, title := "A", description := none, annoyance_level := 3
      category := "home", status := "not_fixed", created_at := ⟨0, 0⟩
      updated_at := ⟨0, 0⟩, fixed_at := none, encounter_count := 0
      encounter_limit := none, last_encounter_date := none },
    { id := 2, title := "B", description := none, annoyance_level := 5
      category := "work", status := "fixed", created_at := ⟨0, 0⟩
      updated_at := ⟨1, 0⟩, fixed_at := some ⟨1, 0⟩, encounter_count := 0
      encounter_limit := none, last_encounter_date := none },
    { id := 3, title := "C", description := none, annoyance_level := 2
      category := "digital", status := "not_fixed", created_at := ⟨0, 0⟩
      updated_at := ⟨0, 0⟩, fixed_at := none, encounter_count := 0
      encounter_limit := none, last_encounter_date := none }], none⟩

/-- Witness for C6 on the worked example: breakdown (3, 0, 2, 0, 0) whose
values sum to the current score 5. -/
theorem category_breakdown_spec_witness :
    calculate_category_breakdown c6db = ⟨3, 0, 2, 0, 0⟩ ∧
    ((calculate_category_breakdown c6db).toPairs.map Prod.snd).sum =
      (calculate_current_score c6db 2).current_score ∧
    (calculate_current_score c6db 2).current_score = 5 :=
  ⟨by decide, (category_breakdown_spec c6db 2).2.2.2.2.2.2 (by decide), by decide⟩

theorem rowKeyGe_trans :
    ∀ a b c : ImpactRow, rowKeyGe a b = true → rowKeyGe b c = true → rowKeyGe a c = true := by
  intro a b c hab hbc
  simp only [rowKeyGe, Bool.or_eq_true, Bool.and_eq_true, decide_eq_true_eq] at hab hbc ⊢
  omega

theorem rowKeyGe_total :
    ∀ a b : ImpactRow, rowKeyGe a b = true ∨ rowKeyGe b a = true := by
  intro a b
  simp only [rowKeyGe, Bool.or_eq_true, Bool.and_eq_true, decide_eq_true_eq]
  omega

theorem insertRow_perm (r : ImpactRow) : ∀ l, (insertRow r l).Perm (r :: l) := by
  intro l
  induction l with
  | nil => exact List.Perm.refl _
  | cons x xs ih =>
    unfold insertRow
    by_cases h : rowKeyGe r x
    · rw [if_pos h]
    · rw [if_neg h]
      exact (ih.cons x).trans (List.Perm.swap r x xs)

theorem insertRow_pairwise (r : ImpactRow) :
    ∀ l, List.Pairwise (fun a b => rowKeyGe a b = true) l →
      List.Pairwise (fun a b => rowKeyGe a b = true) (insertRow r l) := by
  intro l
  induction l with
  | nil => intro _; simp [insertRow]
  | cons x xs ih =>
    intro h
    rw [List.pairwise_cons] at h
    obtain ⟨hx, hxs⟩ := h
    unfold insertRow
    by_cases hge : rowKeyGe r x
    · rw [if_pos hge]
      rw [List.pairwise_cons]
      refine ⟨?_, List.pairwise_cons.2 ⟨hx, hxs⟩⟩
      intro y hy
      rcases List.mem_cons.1 hy with hy | hy
      · rw [hy]; exact hge
      · exact rowKeyGe_trans r x y hge (hx y hy)
    · rw [if_neg hge]
      rw [List.pairwise_cons]
      refine ⟨?_, ih hxs⟩
      intro y hy
      have hy2 : y ∈ r :: xs := (insertRow_perm r xs).mem_iff.1 hy
      rcases List.mem_cons.1 hy2 with hy2 | hy2
      · rw [hy2]
        rcases rowKeyGe_total x r with h | h
        · exact h
        · exact absurd h (by simpa using hge)
      · exact hx y hy2

theorem sortRows_perm : ∀ l, (sortRows l).Perm l := by
  intro l
  induction l with
  | nil => exact List.Perm.refl _
  | cons x xs ih =>
    unfold sortRows
    exact (insertRow_perm x (sortRows xs)).trans (ih.cons x)

theorem sortRows_pairwise :
    ∀ l, List.Pairwise (fun a b => rowKeyGe a b = true) (sortRows l) := by
  intro l
  induction l with
  | nil => simp [sortRows]
  | cons x xs ih =>
    unfold sortRows
    exact insertRow_pairwise x (sortRows xs) ih

/-- Claim C9: `most_annoying(limit)` maps each active item to a row whose
impact is `encounter_count * annoyance_level` when the item has an encounter
today and `annoyance_level` (with reported count 0) otherwise, sorts the
rows descending by the composite key `(impact, annoyance_level)` — impact
primary, annoyance level as tie-break — and returns the first `limit`. -/
theorem most_annoying_spec :
    ∀ db (today : Int) (limit : Nat),
      ∃ l : List ImpactRow,
        l.Perm ((activeItems db.items).map (impactRow today)) ∧
        List.Pairwise (fun a b => b.impact < a.impact ∨
          (b.impact = a.impact ∧ b.annoyance_level ≤ a.annoyance_level)) l ∧
        get_most_annoying_items db today limit = l.take limit ∧
        (∀ it, it ∈ activeItems db.items →
          (it.last_encounter_date = some today →
            impactRow today it = ⟨it.id, it.title, it.annoyance_level,
              it.encounter_count, it.encounter_count * it.annoyance_level, it.category⟩) ∧
          (it.last_encounter_date ≠ some today →
            impactRow today it = ⟨it.id, it.title, it.annoyance_level, 0,
              it.annoyance_level, it.category⟩)) := by
  intro db today limit
  refine ⟨sortRows ((activeItems db.items).map (impactRow today)),
    sortRows_perm _, ?_, rfl, ?_⟩
  · refine (sortRows_pairwise _).imp ?_
    intro a b hab
    simpa only [rowKeyGe, Bool.or_eq_true, Bool.and_eq_true, decide_eq_true_eq] using hab
  · intro it _
    constructor
    · intro h
      simp [impactRow, h]
    · intro h
      have hb : (it.last_encounter_date == some today) = false := by
        simpa using h
      simp [impactRow, hb]

/-- A database for the ranking example: one item with three encounters
today (day 0), two tied items without encounters, and one fixed item. -/
def c9db : DB :=
  ⟨[{ id := 1, title := "A", description := none, annoyance_level := 2
      category := "home", status := "not_fixed", created_at := ⟨0, 0⟩
      updated_at := ⟨0, 0⟩, fixed_at := none, encounter_count := 3
      encounter_limit := none, last_encounter_date := some 0 },
    { id := 2, title := "B", description := none, annoyance_level := 5
      category := "work", status := "in_progress", created_at := ⟨0, 0⟩
      updated_at := ⟨0, 0⟩, fixed_at := none, encounter_count := 4
      encounter_limit := none, last_encounter_date := some (-1) },
    { id := 3, title := "C", description := none, annoyance_level := 5
      category := "digital", status := "not_fixed", created_at := ⟨0, 0⟩
      updated_at := ⟨0, 0⟩, fixed_at := none, encounter_count := 0
      encounter_limit := none, last_encounter_date := none },
    { id := 4, title := "D", description := none, annoyance_level := 5
      category := "other", status := "fixed", created_at := ⟨0, 0⟩
      updated_at := ⟨0, 0⟩, fixed_at := some ⟨0, 5⟩, encounter_count := 0
      encounter_limit := none, last_encounter_date := none }], none⟩

/-- Witness for C9 on `c9db` at day 0 with limit 2: A has impact 6 and wins,
the tied B and C keep their stored order, B's stale count is reported as 0,
and the fixed D is excluded. -/
theorem most_annoying_spec_witness :
    get_most_annoying_items c9db 0 2 =
      [⟨1, "A", 2, 3, 6, "home"⟩, ⟨2, "B", 5, 0, 5, "work"⟩] ∧
    impactRow 0 (c9db.items.get ⟨1, by decide⟩) = ⟨2, "B", 5, 0, 5, "work"⟩ := by
  obtain ⟨l, hperm, hsort, htake, himp⟩ := most_annoying_spec c9db 0 2
  exact ⟨by decide,
    (himp (c9db.items.get ⟨1, by decide⟩) (by decide)).2 (by decide)⟩

end FrictionLog
